import Mathlib

/-
  Verification of the corp-jira MCP server (TypeScript) against its
  natural-language specification.

  Shallow embedding conventions:
  * JavaScript values that flow through the operations are modelled by the
    inductive `Json` below; JS objects are association lists in insertion
    order (JS object keys are unique, and spread/assignment replaces the
    existing entry in place).
  * `async` functions that can `throw` are modelled with `Except String`
    (the `String` being the thrown `Error`'s `.message`); functions wrapped
    in `try/catch` that always return a payload are modelled as total.
  * The HTTP layer (`fetch`) is an environment parameter
    `JiraEnv : JiraRequest → Except String Json`; each operation also
    returns the list of requests it issued, in order.
  * Machine integers do not overflow in any modelled path, so numbers are
    `Nat`/`Int`.
-/

namespace CorpJira

/-- A JSON / JavaScript runtime value.  Objects are association lists in
insertion order. -/
inductive Json where
  | jnull
  | jbool (b : Bool)
  | jnum (n : Int)
  | jstr (s : String)
  | jarr (elems : List Json)
  | jobj (fields : List (String × Json))

mutual
/-- Structural equality of JSON values (the JS `SameValueZero` used by
`Set` membership, restricted to the values that arise here). -/
def jsonBEq : Json → Json → Bool
  | .jnull, .jnull => true
  | .jbool a, .jbool b => a = b
  | .jnum a, .jnum b => a = b
  | .jstr a, .jstr b => a = b
  | .jarr a, .jarr b => jsonListBEq a b
  | .jobj a, .jobj b => jsonFieldsBEq a b
  | _, _ => false

def jsonListBEq : List Json → List Json → Bool
  | [], [] => true
  | x :: xs, y :: ys => jsonBEq x y && jsonListBEq xs ys
  | _, _ => false

def jsonFieldsBEq : List (String × Json) → List (String × Json) → Bool
  | [], [] => true
  | (k, v) :: xs, (l, w) :: ys => k = l && (jsonBEq v w && jsonFieldsBEq xs ys)
  | _, _ => false
end

/-- First-occurrence lookup in an object's field list (JS object keys are
unique, so this is JS property access). -/
def lookupField : List (String × Json) → String → Option Json
  | [], _ => none
  | kv :: rest, k => if kv.1 = k then some kv.2 else lookupField rest k

/-- JS property access `v[k]`: `some` for an object field that is present,
`none` (undefined) otherwise. -/
def getField : Json → String → Option Json
  | .jobj fs, k => lookupField fs k
  | _, _ => none

/-- JS truthiness of a value (`NaN` does not arise in the modelled paths). -/
def jsTruthy : Json → Bool
  | .jnull => false
  | .jbool b => b
  | .jnum n => decide (n ≠ 0)
  | .jstr s => decide (s ≠ "")
  | .jarr _ => true
  | .jobj _ => true

mutual
/-- JS `String(v)` coercion, as used by template literals and
`Array.prototype.join`.  (In the modelled code it is only applied to
primitive error-message fields.) -/
def jsToString : Json → String
  | .jnull => "null"
  | .jbool b => if b then "true" else "false"
  | .jnum n => toString n
  | .jstr s => s
  | .jarr xs => jsToStringList xs
  | .jobj _ => "[object Object]"

/-- Elements of an array joined with `,` (JS `Array.prototype.toString`). -/
def jsToStringList : List Json → String
  | [] => ""
  | x :: xs =>
    match xs with
    | [] => jsToString x
    | _ :: _ => jsToString x ++ "," ++ jsToStringList xs
end

/-- JS `typeof v === 'object'` (true for objects, arrays and `null`). -/
def typeofIsObject : Json → Bool
  | .jobj _ => true
  | .jarr _ => true
  | .jnull => true
  | _ => false

/-- The guard `response && typeof response === 'object'` used by
`createJiraError`: object-like and not `null`. -/
def isObjectLike : Json → Bool
  | .jobj _ => true
  | .jarr _ => true
  | _ => false

/-- Whether `a` is an initial run of `b`. -/
def leadsWith : List Char → List Char → Bool
  | [], _ => true
  | _ :: _, [] => false
  | x :: xs, y :: ys => x = y && leadsWith xs ys

def strContainsAux (sub : List Char) : List Char → Bool
  | [] => leadsWith sub []
  | c :: cs => leadsWith sub (c :: cs) || strContainsAux sub cs

/-- JS `s.includes(sub)` on strings. -/
def strContains (s sub : String) : Bool := strContainsAux sub.data s.data

/-! ### Base64 (Node `Buffer` codec used by `constructAuthHeader`) -/

/-- The standard base64 alphabet. -/
def b64Alphabet : List Char :=
  "ABCDEFGHIJKLMNOPQRSTUVWXYZabcdefghijklmnopqrstuvwxyz0123456789+/".data

/-- The base64 digit for a 6-bit value. -/
def b64Char (n : Nat) : Char := b64Alphabet.getD n '='

/-- The 6-bit value of a base64 digit, if it is one. -/
def b64Val (c : Char) : Option Nat := b64Alphabet.findIdx? (· = c)

/-- Base64-encode a byte list, three input bytes to four output digits,
with `=` padding (Node `Buffer.prototype.toString('base64')`). -/
def base64EncodeChunks : List Nat → List Char
  | [] => []
  | [a] => [b64Char (a / 4), b64Char (a % 4 * 16), '=', '=']
  | [a, b] => [b64Char (a / 4), b64Char (a % 4 * 16 + b / 16), b64Char (b % 16 * 4), '=']
  | a :: b :: c :: rest =>
      b64Char (a / 4) :: b64Char (a % 4 * 16 + b / 16) ::
        b64Char (b % 16 * 4 + c / 64) :: b64Char (c % 64) :: base64EncodeChunks rest

def base64Encode (bs : List Nat) : String := ⟨base64EncodeChunks bs⟩

/-- The 6-bit value of an alphabet digit (callers pass pre-filtered
alphabet characters only). -/
def b64SixVal (c : Char) : Nat := (b64Val c).getD 0

/-- Decode a run of base64 digits: full groups of four digits give three
bytes; a trailing group of three or two digits gives the two or one whole
bytes it determines (a single trailing digit determines no whole byte and
is dropped), as Node's lenient decoder does. -/
def base64DecodeChunks : List Char → List Nat
  | a :: b :: c :: d :: rest =>
      (b64SixVal a * 4 + b64SixVal b / 16) :: (b64SixVal b % 16 * 16 + b64SixVal c / 4) ::
        (b64SixVal c % 4 * 64 + b64SixVal d) :: base64DecodeChunks rest
  | [a, b, c] => [b64SixVal a * 4 + b64SixVal b / 16, b64SixVal b % 16 * 16 + b64SixVal c / 4]
  | [a, b] => [b64SixVal a * 4 + b64SixVal b / 16]
  | _ => []

/-- Embeds Node's lenient `Buffer.from(s, 'base64')`: characters outside
the base64 alphabet — whitespace, `=` padding, anything invalid — are
ignored, and the surviving digit run is decoded, unpadded tails included
(so e.g. `"Ojo"` decodes to the bytes `3a 3a`, the text `"::"`).  The
decoder is total: it never throws. -/
def base64Decode (s : String) : List Nat :=
  base64DecodeChunks (s.data.filter (fun c => (b64Val c).isSome))

/-- UTF-8 encoding of one character. -/
def utf8EncodeCharBytes (c : Char) : List Nat :=
  let n := c.toNat
  if n < 0x80 then [n]
  else if n < 0x800 then [0xC0 + n / 64, 0x80 + n % 64]
  else if n < 0x10000 then [0xE0 + n / 4096, 0x80 + n / 64 % 64, 0x80 + n % 64]
  else [0xF0 + n / 262144, 0x80 + n / 4096 % 64, 0x80 + n / 64 % 64, 0x80 + n % 64]

/-- UTF-8 bytes of a string (what `Buffer.from(string)` operates on). -/
def utf8Bytes (s : String) : List Nat := s.data.flatMap utf8EncodeCharBytes

/-- Embeds `constructAuthHeader` (common/utils.ts).  The source decodes
the token with Node's (lenient, non-throwing — its `catch` is dead code)
`Buffer.from(token, 'base64')` and, when the decoded text contains `':'`,
uses the token verbatim as a pre-encoded credential; otherwise it encodes
`email:token`.  A decoded byte list contains the character `':'` exactly
when it contains the byte 58 (58 < 0x80, and UTF-8 continuation bytes are
≥ 0x80). -/
def constructAuthHeader (email token : String) : String :=
  if (base64Decode token).contains 58 then "Basic " ++ token
  else "Basic " ++ base64Encode (utf8Bytes (email ++ ":" ++ token))

/-! ### URL construction (`buildUrl`, common/utils.ts) -/

/-- A defined query-parameter value (`string | number`). -/
inductive ParamValue where
  | pstr (s : String)
  | pnum (n : Int)
deriving Repr, DecidableEq

/-- JS `value.toString()` for a query-parameter value. -/
def paramToString : ParamValue → String
  | .pstr s => s
  | .pnum n => toString n

/-- Embeds the regex replacement `path.replace(/^\//, '')`: removes one
leading `'/'` when present. -/
def stripOneLeadingSlash (p : String) : String :=
  match p.data with
  | '/' :: rest => ⟨rest⟩
  | _ => p

/-- Renders accumulated `searchParams` as a query string (empty when no
parameter was appended).  Percent-encoding is not modelled: the embedding
is exact for values that need no escaping. -/
def renderQueryPairs (qs : List (String × String)) : String :=
  match qs with
  | [] => ""
  | _ :: _ => "?" ++ String.intercalate "&" (qs.map (fun kv => kv.1 ++ "=" ++ kv.2))

/-- Embeds `buildUrl` (common/utils.ts): strip one leading slash from the
path, join it to the base URL with `/`, then `forEach` over the entries
appending every parameter whose value is defined. -/
def buildUrl (apiBaseUrl path : String) (params : List (String × Option ParamValue)) : String :=
  let cleanPath := stripOneLeadingSlash path
  let searchParams := params.foldl
    (fun acc kv =>
      match kv.2 with
      | some v => acc ++ [(kv.1, paramToString v)]
      | none => acc) []
  apiBaseUrl ++ "/" ++ cleanPath ++ renderQueryPairs searchParams

/-! ### Error taxonomy (`errors.ts`) -/

/-- The error classes of errors.ts, identified by kind. -/
inductive JiraErrorKind where
  | generic
  | validation
  | notFound
  | authentication
  | permission
  | rateLimit
  | conflict
deriving Repr, DecidableEq

/-- An error value as thrown by the client: its class, `.message` and
`.status`.  (`JiraRateLimitError.resetAt` is wall-clock time and is not
modelled; no claim mentions it.) -/
structure JiraErrorValue where
  kind : JiraErrorKind
  message : String
  status : Nat
deriving Repr, DecidableEq

def mkJiraError (message : String) (status : Nat) : JiraErrorValue :=
  ⟨.generic, message, status⟩

def mkJiraValidationError (message : String) (status : Nat) : JiraErrorValue :=
  ⟨.validation, message, status⟩

def mkJiraResourceNotFoundError (resource : String) : JiraErrorValue :=
  ⟨.notFound, "Resource not found: " ++ resource, 404⟩

def mkJiraAuthenticationError (message : String) : JiraErrorValue :=
  ⟨.authentication, message, 401⟩

def mkJiraPermissionError (message : String) : JiraErrorValue :=
  ⟨.permission, message, 403⟩

def mkJiraRateLimitError (message : String) : JiraErrorValue :=
  ⟨.rateLimit, message, 429⟩

def mkJiraConflictError (message : String) : JiraErrorValue :=
  ⟨.conflict, message, 409⟩

/-- The `response.errorMessages || []` read in `createJiraError`, for the
shapes the Jira API produces (an array, or absent/falsy).  A truthy
non-array value would raise a `TypeError` further down in the JS and is
outside the modelled shapes. -/
def errorMessagesOf (response : Json) : List Json :=
  match getField response "errorMessages" with
  | some (.jarr xs) => xs
  | _ => []

/-- The `response.errors || {}` read in `createJiraError` (same shape
convention as `errorMessagesOf`). -/
def errorsEntriesOf (response : Json) : List (String × Json) :=
  match getField response "errors" with
  | some (.jobj fs) => fs
  | _ => []

/-- Embeds the message computation of `createJiraError`: joined
`errorMessages` when non-empty, else the joined `key: value` entries of
`errors`, else a truthy `response.message`, else `'Unknown error'`. -/
def deriveErrorMessage (response : Json) : String :=
  let errorMessages := errorMessagesOf response
  if errorMessages.length > 0 then
    String.intercalate ", " (errorMessages.map jsToString)
  else
    let entriesMsg := String.intercalate ", "
      ((errorsEntriesOf response).map (fun kv => kv.1 ++ ": " ++ jsToString kv.2))
    if entriesMsg ≠ "" then entriesMsg
    else
      match getField response "message" with
      | some v => if jsTruthy v then jsToString v else "Unknown error"
      | none => "Unknown error"

/-- Embeds `createJiraError` (errors.ts): for an object-like response the
status switch picks the error class; any other response yields the plain
`JiraError('Unknown Jira API error')` regardless of status. -/
def createJiraError (status : Nat) (response : Json) : JiraErrorValue :=
  if isObjectLike response then
    let message := deriveErrorMessage response
    if status = 401 then mkJiraAuthenticationError message
    else if status = 403 then mkJiraPermissionError message
    else if status = 404 then mkJiraResourceNotFoundError message
    else if status = 409 then mkJiraConflictError message
    else if status = 400 ∨ status = 422 then mkJiraValidationError message status
    else if status = 429 then mkJiraRateLimitError message
    else mkJiraError message status
  else mkJiraError "Unknown Jira API error" status

/-- The spec's status-to-kind taxonomy (§7 and claim C2), written from the
spec's words for comparison with `createJiraError`. -/
def specStatusToKind (status : Nat) : JiraErrorKind :=
  if status = 401 then .authentication
  else if status = 403 then .permission
  else if status = 404 then .notFound
  else if status = 409 then .conflict
  else if status = 400 ∨ status = 422 then .validation
  else if status = 429 then .rateLimit
  else .generic

/-! ### Log redaction (`jiraRequest`, common/utils.ts) -/

/-- The keys redacted by the response-body log replacer. -/
def sensitiveKeys : List String := ["token", "password", "secret"]

/-- Whether a field key is redacted (`['token','password','secret']
.includes(key.toLowerCase())`). -/
def isSensitiveKey (k : String) : Bool := sensitiveKeys.contains k.toLower

mutual
/-- Embeds the `JSON.stringify` replacer of `jiraRequest`'s response-body
log: every object field whose lower-cased key is sensitive is replaced by
the string `[REDACTED]` (and, as in `JSON.stringify`, the replaced value
is not traversed further); all other values are traversed recursively. -/
def sanitizeJson : Json → Json
  | .jnull => .jnull
  | .jbool b => .jbool b
  | .jnum n => .jnum n
  | .jstr s => .jstr s
  | .jarr xs => .jarr (sanitizeList xs)
  | .jobj fs => .jobj (sanitizeFields fs)

def sanitizeList : List Json → List Json
  | [] => []
  | x :: xs => sanitizeJson x :: sanitizeList xs

def sanitizeFields : List (String × Json) → List (String × Json)
  | [] => []
  | (k, v) :: fs =>
      (k, if isSensitiveKey k then .jstr "[REDACTED]" else sanitizeJson v) :: sanitizeFields fs
end

mutual
/-- Checks that a JSON tree has every sensitive-keyed object field equal to
the string `[REDACTED]` (the property claimed of logged response bodies). -/
def redactionOk : Json → Bool
  | .jarr xs => redactionOkList xs
  | .jobj fs => redactionOkFields fs
  | _ => true

def redactionOkList : List Json → Bool
  | [] => true
  | x :: xs => redactionOk x && redactionOkList xs

def redactionOkFields : List (String × Json) → Bool
  | [] => true
  | (k, v) :: fs =>
      (if isSensitiveKey k then jsonBEq v (.jstr "[REDACTED]") else redactionOk v) &&
        redactionOkFields fs
end

mutual
/-- A plain JSON serializer standing in for `JSON.stringify` (string
escaping and the `null, 2` pretty-printing arguments are not modelled;
the claims only compare serializer outputs for equality). -/
def stringifyJson : Json → String
  | .jnull => "null"
  | .jbool b => if b then "true" else "false"
  | .jnum n => toString n
  | .jstr s => "\"" ++ s ++ "\""
  | .jarr xs => "[" ++ stringifyListJson xs ++ "]"
  | .jobj fs => "\x7b" ++ stringifyFieldsJson fs ++ "\x7d"

def stringifyListJson : List Json → String
  | [] => ""
  | [x] => stringifyJson x
  | x :: y :: xs => stringifyJson x ++ "," ++ stringifyListJson (y :: xs)

def stringifyFieldsJson : List (String × Json) → String
  | [] => ""
  | [(k, v)] => "\"" ++ k ++ "\":" ++ stringifyJson v
  | (k, v) :: kv :: fs =>
      "\"" ++ k ++ "\":" ++ stringifyJson v ++ "," ++ stringifyFieldsJson (kv :: fs)
end

/-- The `Response body:` log line: object-like bodies (JS
`typeof === 'object'`) are serialized through the redacting replacer,
any other body is logged as-is. -/
def sanitizedBodyLog (body : Json) : String :=
  if typeofIsObject body then stringifyJson (sanitizeJson body) else jsToString body

/-- JS object update `o[k] = v` (and the override of a spread): replaces
the first — in a JS object the only — entry with key `k` in place, or
appends the key at the end when absent. -/
def objSet : List (String × String) → String → String → List (String × String)
  | [], k, v => [(k, v)]
  | kv :: rest, k, v => if kv.1 = k then (k, v) :: rest else kv :: objSet rest k v

/-- Property read on a string map. -/
def lookupHeader : List (String × String) → String → Option String
  | [], _ => none
  | kv :: rest, k => if kv.1 = k then some kv.2 else lookupHeader rest k

/-- JS object spread `{...base, ...extra}` on string maps. -/
def mergeHeaders (base extra : List (String × String)) : List (String × String) :=
  extra.foldl (fun acc kv => objSet acc kv.1 kv.2) base

/-- The default headers of `jiraRequest`.  The `User-Agent` value is built
from the package version and `getUserAgent()`; both are constants of the
process, modelled as a fixed string. -/
def baseRequestHeaders : List (String × String) :=
  [("Content-Type", "application/json"),
   ("Accept", "application/json"),
   ("X-Atlassian-Token", "no-check"),
   ("User-Agent", "modelcontextprotocol/servers/jira")]

/-- The header map of an outgoing request: defaults, then
`options.headers`, then `headers["Authorization"] = constructAuthHeader
(email, token)`. -/
def requestHeaders (optHeaders : List (String × String)) (email token : String) :
    List (String × String) :=
  objSet (mergeHeaders baseRequestHeaders optHeaders) "Authorization"
    (constructAuthHeader email token)

/-- The `Headers:` log line of `jiraRequest`: the header map serialized
with `Authorization` overridden by `[REDACTED]`. -/
def loggedHeaderLine (optHeaders : List (String × String)) (email token : String) : String :=
  "Headers: " ++ stringifyJson
    (.jobj ((objSet (requestHeaders optHeaders email token) "Authorization" "[REDACTED]").map
      (fun kv => (kv.1, .jstr kv.2))))

/-! ### Response handling (`parseResponseBody` / `jiraRequest`, common/utils.ts) -/

/-- An HTTP response as observed by `jiraRequest`: status, the
`content-type` header, the body text, and the result of `JSON.parse` on
that text (`none` models a parse failure; `JSON.parse` itself is a host
primitive). -/
structure HttpResponse where
  status : Nat
  contentType : Option String
  body : String
  jsonParse : Option Json

/-- The `{ success: true }` value returned for contentless responses. -/
def successJson : Json := .jobj [("success", .jbool true)]

/-- Embeds `parseResponseBody`: 204 first, then JSON content (empty or
unparseable text collapses to `{success: true}`), then the XML rejection,
then raw text. -/
def parseResponseBody (r : HttpResponse) : Except String Json :=
  if r.status = 204 then .ok successJson
  else
    match r.contentType with
    | some ct =>
        if strContains ct "application/json" then
          if r.body = "" then .ok successJson
          else
            match r.jsonParse with
            | some j => .ok j
            | none => .ok successJson
        else if strContains ct "application/xml" then
          .error "Received XML response instead of JSON. This usually indicates an authentication or API endpoint issue."
        else .ok (.jstr r.body)
    | none => .ok (.jstr r.body)

/-- A value thrown by the response path of `jiraRequest`: either a plain
`Error` (by message) or a classified `JiraError`. -/
inductive Thrown where
  | plainError (message : String)
  | jiraError (e : JiraErrorValue)

/-- `response.ok` of the fetch API: status in the 2xx range. -/
def statusOk (status : Nat) : Bool := 200 ≤ status && status ≤ 299

/-- Embeds the response handling of `jiraRequest` after `fetch`: 204 short
circuits to `{success: true}`; otherwise the parsed body is computed (its
errors propagate), and a non-`ok` status throws `createJiraError` on the
parsed body. -/
def processJiraResponse (r : HttpResponse) : Except Thrown Json :=
  if r.status = 204 then .ok successJson
  else
    match parseResponseBody r with
    | .error e => .error (.plainError e)
    | .ok body =>
        if !statusOk r.status then .error (.jiraError (createJiraError r.status body))
        else .ok body

/-! ### Operation layer: request plumbing shared by the handlers -/

/-- One HTTP call made through `jiraRequest`: the path (or full URL) it was
given, the method, and the JSON body if any. -/
structure JiraRequest where
  path : String
  method : String
  body : Option Json

/-- The HTTP layer seen by the operations: each request either resolves to
a parsed JSON body or rejects with an `Error` whose `.message` is the
given string. -/
def JiraEnv : Type := JiraRequest → Except String Json

/-- The `{success, message, data}` payload produced by `formatResponse`
(operations/update.ts). -/
structure OpResult where
  success : Bool
  message : String
  data : Option Json

/-- Embeds `formatResponse` (operations/update.ts). -/
def formatResponse (success : Bool) (message : String) (data : Option Json) : OpResult :=
  ⟨success, message, data⟩

/-- Embeds `handleOperationError` (operations/update.ts): an
`Error ${operation}: ${message}` failure payload. -/
def handleOperationError (errMsg operation : String) : OpResult :=
  formatResponse false ("Error " ++ operation ++ ": " ++ errMsg) none

/-- An `OpResult` rendered back to a JSON value (as when it is embedded in
another payload); an absent `data` key is dropped, as `JSON.stringify`
drops `undefined` properties. -/
def opResultJson (r : OpResult) : Json :=
  .jobj ([("success", .jbool r.success), ("message", .jstr r.message)] ++
    (match r.data with
     | some d => [("data", d)]
     | none => []))

/-! ### addJiraComment (operations/addComment.ts) -/

/-- The comment body schema: text plus optional visibility
`{type, value}`. -/
structure CommentBody where
  body : String
  visibility : Option (String × String)

def commentBodyJson (c : CommentBody) : Json :=
  match c.visibility with
  | some tv =>
      .jobj [("body", .jstr c.body),
             ("visibility", .jobj [("type", .jstr tv.1), ("value", .jstr tv.2)])]
  | none => .jobj [("body", .jstr c.body)]

/-- The POST issued by `addJiraComment`. -/
def addCommentRequest (issueIdOrKey : String) (c : CommentBody) : JiraRequest :=
  ⟨"issue/" ++ issueIdOrKey ++ "/comment", "POST", some (commentBodyJson c)⟩

/-- Embeds `addJiraComment`: one POST; a success payload carrying the
response, or (the call being wrapped in `try/catch`) a failure payload
carrying the error message.  (The source's failure object also keeps the
raw error under an `error` key, which is not modelled.) -/
def addJiraComment (env : JiraEnv) (issueIdOrKey : String) (c : CommentBody) :
    OpResult × List JiraRequest :=
  let req := addCommentRequest issueIdOrKey c
  match env req with
  | .ok resp => (⟨true, "Comment added successfully", some resp⟩, [req])
  | .error e => (⟨false, e, none⟩, [req])

/-! ### Status transitions (operations/status.ts, shown in
getProjectConfig.ts's second unit) -/

/-- The parsed `TransitionJiraStatusSchema` input.  `resolution` is the
`name` of the optional `{name}` object; `fields` the optional free-form
field map. -/
structure TransitionParams where
  issueIdOrKey : String
  transitionId : String
  comment : Option String
  resolution : Option String
  fields : Option (List (String × Json))

/-- JS object update on JSON field lists (used for spread merges). -/
def objSetJson : List (String × Json) → String → Json → List (String × Json)
  | [], k, v => [(k, v)]
  | kv :: rest, k, v => if kv.1 = k then (k, v) :: rest else kv :: objSetJson rest k v

/-- JS spread merge `{...a, ...b}` on JSON field lists. -/
def objMergeJson (a b : List (String × Json)) : List (String × Json) :=
  b.foldl (fun acc kv => objSetJson acc kv.1 kv.2) a

/-- Embeds `createTransitionRequestBody`: `{transition: {id}}`, a
`fields.resolution` added when a resolution is given, and the additional
fields spread over `body.fields` when given.  The comment is never part of
this body. -/
def createTransitionRequestBody (transitionId : String) (resolution : Option String)
    (additionalFields : Option (List (String × Json))) : Json :=
  let base : List (String × Json) := [("transition", .jobj [("id", .jstr transitionId)])]
  let fields1 : Option (List (String × Json)) :=
    match resolution with
    | some name => some [("resolution", .jobj [("name", .jstr name)])]
    | none => none
  let fields2 : Option (List (String × Json)) :=
    match additionalFields with
    | some af => some (objMergeJson (fields1.getD []) af)
    | none => fields1
  match fields2 with
  | some fs => .jobj (base ++ [("fields", .jobj fs)])
  | none => .jobj base

/-- The POST issued by `transitionJiraStatus` — note the body depends on
the transition id, resolution and fields only, never on the comment. -/
def transitionRequest (p : TransitionParams) : JiraRequest :=
  ⟨"issue/" ++ p.issueIdOrKey ++ "/transitions", "POST",
   some (createTransitionRequestBody p.transitionId p.resolution p.fields)⟩

/-- Embeds `transitionJiraStatus`: POST the transition (without comment);
then, when `comment` is truthy (supplied and non-empty — `if (comment)`),
add it by a separate `addJiraComment` call whose outcome only changes the
message, never the `success: true` of the transition. -/
def transitionJiraStatus (env : JiraEnv) (p : TransitionParams) :
    OpResult × List JiraRequest :=
  let req := transitionRequest p
  match env req with
  | .error e => (handleOperationError e "transitioning status", [req])
  | .ok resp =>
      let baseMsg := "Successfully transitioned status of issue " ++ p.issueIdOrKey
      match p.comment with
      | some c =>
          if c = "" then
            (formatResponse true baseMsg
              (some (.jobj [("transition", resp), ("comment", .jnull)])), [req])
          else
            let cres := addJiraComment env p.issueIdOrKey ⟨c, none⟩
            (formatResponse true
              (baseMsg ++
                (if cres.1.success then " and added comment"
                 else " but failed to add comment: " ++ cres.1.message))
              (some (.jobj [("transition", resp), ("comment", opResultJson cres.1)])),
             req :: cres.2)
      | none =>
          (formatResponse true baseMsg
            (some (.jobj [("transition", resp), ("comment", .jnull)])), [req])

/-- The GET issued by `getJiraTransitions` / `transitionJiraStatusByName`. -/
def getTransitionsRequest (issueIdOrKey : String) : JiraRequest :=
  ⟨"issue/" ++ issueIdOrKey ++ "/transitions", "GET", none⟩

/-- The `t.to.name` read of a transition entry, for well-shaped entries
(a malformed entry would raise a `TypeError` in the JS inside `find`; it
is treated as non-matching here, a path no claim exercises). -/
def transitionToName (t : Json) : Option String :=
  match getField t "to" with
  | some toObj =>
      match getField toObj "name" with
      | some (.jstr s) => some s
      | _ => none
  | none => none

/-- Embeds `findTransitionIdByStatusName`: case-insensitive match of
`t.to.name` against the target, returning the matching transition's `id`. -/
def findTransitionIdByStatusName (transitions : List Json) (targetStatusName : String) :
    Option String :=
  match transitions.find?
      (fun t => (transitionToName t).any (fun n => n.toLower = targetStatusName.toLower)) with
  | some t =>
      match getField t "id" with
      | some (.jstr id) => some id
      | _ => none
  | none => none

/-- Embeds `transitionJiraStatusByName`: GET the available transitions,
resolve the target status name to a transition id (failing with the
"Could not find a transition" payload when absent), then run
`transitionJiraStatus`. -/
def transitionJiraStatusByName (env : JiraEnv) (issueIdOrKey statusName : String)
    (comment : Option String) (resolution : Option String) :
    OpResult × List JiraRequest :=
  let req := getTransitionsRequest issueIdOrKey
  match env req with
  | .error e => (handleOperationError e "transitioning status by name", [req])
  | .ok resp =>
      let transitions :=
        match getField resp "transitions" with
        | some (.jarr ts) => ts
        | _ => []
      match findTransitionIdByStatusName transitions statusName with
      | none =>
          (formatResponse false
            ("Could not find a transition to status \"" ++ statusName ++
              "\". Available transitions are: " ++
              String.intercalate ", " (transitions.map (fun t => (transitionToName t).getD "")))
            none, [req])
      | some tid =>
          let r := transitionJiraStatus env ⟨issueIdOrKey, tid, comment, resolution, none⟩
          (r.1, req :: r.2)

/-! ### searchJiraIssues (operations/search.ts) -/

/-- The parsed `JiraSearchSchema` input. -/
structure SearchParams where
  jql : String
  startAt : Option Int
  maxResults : Option Int
  fields : Option (List String)
  expand : Option (List String)
  properties : Option (List String)
  fieldsByKeys : Option Bool

/-- Embeds the test `/^[A-Z]+-\d+$/.test(jql)`: one or more ASCII capital
letters, a dash, one or more ASCII digits, and nothing else. -/
def isIssueKeyJql (s : String) : Bool :=
  decide (s.data.takeWhile Char.isUpper ≠ []) &&
    match s.data.dropWhile Char.isUpper with
    | c :: ds => c = '-' && (decide (ds ≠ []) && ds.all Char.isDigit)
    | [] => false

/-- The direct fetch of `issue/<key>` tried by the fast path. -/
def directIssueRequest (jql : String) : JiraRequest :=
  ⟨"issue/" ++ jql, "GET", none⟩

/-- The regular JQL search request: `jiraRequest` is handed the full
`buildUrl` output (which it uses verbatim, as it starts with `http`),
with every optional parameter stringified when present. -/
def searchRequest (apiBaseUrl : String) (p : SearchParams) : JiraRequest :=
  ⟨buildUrl apiBaseUrl "search"
    [("jql", some (.pstr p.jql)),
     ("startAt", p.startAt.map (fun n => .pstr (toString n))),
     ("maxResults", p.maxResults.map (fun n => .pstr (toString n))),
     ("fields", p.fields.map (fun l => .pstr (String.intercalate "," l))),
     ("expand", p.expand.map (fun l => .pstr (String.intercalate "," l))),
     ("properties", p.properties.map (fun l => .pstr (String.intercalate "," l))),
     ("fieldsByKeys", p.fieldsByKeys.map (fun b => .pstr (if b then "true" else "false")))],
   "GET", none⟩

/-- Embeds `searchJiraIssues`: when the jql looks like an issue key, try
the direct fetch and wrap its result as a one-element search result; on
its failure fall back to — and otherwise go straight to — the JQL search,
whose outcome (success or rejection) is returned as-is. -/
def searchJiraIssues (apiBaseUrl : String) (env : JiraEnv) (p : SearchParams) :
    Except String Json × List JiraRequest :=
  if isIssueKeyJql p.jql then
    let req := directIssueRequest p.jql
    match env req with
    | .ok issue =>
        (.ok (.jobj [("issues", .jarr [issue]), ("total", .jnum 1), ("maxResults", .jnum 1)]),
         [req])
    | .error _ =>
        let sreq := searchRequest apiBaseUrl p
        (env sreq, [req, sreq])
  else
    let sreq := searchRequest apiBaseUrl p
    (env sreq, [sreq])

/-! ### getProjectComponents (operations/getProjectComponents.ts) -/

/-- The GET issued by `getProjectComponents`. -/
def componentsRequest (projectIdOrKey : String) : JiraRequest :=
  ⟨"project/" ++ projectIdOrKey ++ "/components", "GET", none⟩

/-- The filter `component.archived === false` (strict equality with the
boolean `false`). -/
def componentArchivedIsFalse (c : Json) : Bool :=
  match getField c "archived" with
  | some (.jbool false) => true
  | _ => false

/-- The `component.lead?.name || 'unassigned'` ownership read. -/
def componentOwnership (c : Json) : Json :=
  match getField c "lead" with
  | some lead =>
      match getField lead "name" with
      | some v => if jsTruthy v then v else .jstr "unassigned"
      | none => .jstr "unassigned"
  | none => .jstr "unassigned"

/-- The transformed component record. -/
def transformComponent (c : Json) : Json :=
  .jobj [("component_id", (getField c "id").getD .jnull),
         ("component_name", (getField c "name").getD .jnull),
         ("ownership", componentOwnership c)]

/-- The `Array.isArray` guard plus filter/transform loop of
`getProjectComponents`. -/
def transformComponents (raw : Json) : List Json :=
  match raw with
  | .jarr cs => (cs.filter componentArchivedIsFalse).map transformComponent
  | _ => []

/-- Embeds `getProjectComponents`.  Its `catch` block does not return an
error payload: it re-throws (a translated message for errors mentioning
404 or 403, the original error otherwise), so a failed HTTP call
propagates as `.error`. -/
def getProjectComponents (env : JiraEnv) (projectIdOrKey : String) :
    Except String Json × List JiraRequest :=
  let req := componentsRequest projectIdOrKey
  match env req with
  | .ok raw =>
      let comps := transformComponents raw
      (.ok (.jobj [("success", .jbool true),
                   ("projectIdOrKey", .jstr projectIdOrKey),
                   ("components", .jarr comps),
                   ("count", .jnum comps.length)]), [req])
  | .error e =>
      if strContains e "404" then
        (.error ("Project '" ++ projectIdOrKey ++ "' not found. Please verify the project key or ID."),
         [req])
      else if strContains e "403" then
        (.error ("Access denied to project '" ++ projectIdOrKey ++ "'. Please check your permissions."),
         [req])
      else (.error e, [req])

/-! ### getProjectConfig (operations/getProjectConfig.ts) -/

/-- Membership by `jsonBEq` (JS `Set` and `Map`-key membership,
SameValueZero). -/
def jsonMem (x : Json) (l : List Json) : Bool := l.any (fun y => jsonBEq y x)

/-- JS `x || d` on an optional property read (absent, or present and
falsy, yields the default). -/
def jsOrDefault (o : Option Json) (d : Json) : Json :=
  match o with
  | some v => if jsTruthy v then v else d
  | none => d

/-- JS `x || null` on an optional property read. -/
def jsOrNull (o : Option Json) : Json := jsOrDefault o .jnull

/-- A property that the source copies verbatim; an absent property is
modelled as `null` (in the JS it is `undefined` and dropped by
`JSON.stringify`, a difference no claim observes). -/
def rawField (j : Json) (k : String) : Json := (getField j k).getD .jnull

/-- The parsed `GetProjectConfigSchema` input (`includeMetadata` defaults
to true). -/
structure GetProjectConfigParams where
  projectKey : String
  includeMetadata : Bool

/-- The expanded project GET of `getProjectConfig`. -/
def projectConfigRequest (projectKey : String) : JiraRequest :=
  ⟨"project/" ++ projectKey ++ "?expand=description,issueTypes,lead,projectKeys,issueTypeHierarchy",
   "GET", none⟩

/-- The system-wide priorities GET. -/
def prioritiesRequest : JiraRequest := ⟨"priority", "GET", none⟩

/-- The per-project statuses GET. -/
def projectStatusesRequest (projectKey : String) : JiraRequest :=
  ⟨"project/" ++ projectKey ++ "/statuses", "GET", none⟩

/-- The create-metadata GET used for custom fields. -/
def createMetaRequest (projectKey : String) : JiraRequest :=
  ⟨"issue/createmeta?projectKeys=" ++ projectKey ++ "&expand=projects.issuetypes.fields",
   "GET", none⟩

/-- The `lead` block of the project summary (built when `projectData.lead`
is truthy). -/
def leadBlockJson (lead : Json) : Json :=
  .jobj [("name", rawField lead "name"),
         ("displayName", rawField lead "displayName"),
         ("emailAddress", rawField lead "emailAddress"),
         ("accountId", rawField lead "accountId"),
         ("accountType", rawField lead "accountType"),
         ("active", rawField lead "active")]

/-- The `project` block of the success payload. -/
def projectBlockJson (projectData : Json) : Json :=
  .jobj [("key", rawField projectData "key"),
         ("name", rawField projectData "name"),
         ("description", jsOrNull (getField projectData "description")),
         ("lead",
          match getField projectData "lead" with
          | some l => if jsTruthy l then leadBlockJson l else .jnull
          | none => .jnull),
         ("projectTypeKey", rawField projectData "projectTypeKey"),
         ("url", rawField projectData "self"),
         ("avatarUrls", rawField projectData "avatarUrls"),
         ("projectKeys", jsOrNull (getField projectData "projectKeys")),
         ("issueTypeHierarchy", jsOrNull (getField projectData "issueTypeHierarchy"))]

/-- One mapped issue type of the metadata block. -/
def issueTypeEntryJson (t : Json) : Json :=
  .jobj [("id", rawField t "id"),
         ("name", rawField t "name"),
         ("description", jsOrNull (getField t "description")),
         ("subtask", jsOrDefault (getField t "subtask") (.jbool false)),
         ("iconUrl", jsOrNull (getField t "iconUrl")),
         ("avatarId", jsOrNull (getField t "avatarId")),
         ("hierarchyLevel", jsOrNull (getField t "hierarchyLevel"))]

/-- One mapped component of the metadata block. -/
def componentEntryJson (c : Json) : Json :=
  .jobj [("id", rawField c "id"),
         ("name", rawField c "name"),
         ("description", jsOrNull (getField c "description"))]

/-- One mapped version of the metadata block. -/
def versionEntryJson (v : Json) : Json :=
  .jobj [("id", rawField v "id"),
         ("name", rawField v "name"),
         ("description", jsOrNull (getField v "description")),
         ("released", jsOrDefault (getField v "released") (.jbool false))]

/-- One mapped priority of the metadata block. -/
def priorityEntryJson (p : Json) : Json :=
  .jobj [("id", rawField p "id"),
         ("name", rawField p "name"),
         ("description", jsOrNull (getField p "description"))]

/-- One deduplicated status of the metadata block. -/
def statusEntryJson (s : Json) : Json :=
  .jobj [("id", rawField s "id"),
         ("name", rawField s "name"),
         ("description", jsOrNull (getField s "description")),
         ("statusCategory",
          .jobj [("key",
                  jsOrDefault
                    (match getField s "statusCategory" with
                     | some sc => getField sc "key"
                     | none => none) (.jstr "unknown")),
                 ("name",
                  jsOrDefault
                    (match getField s "statusCategory" with
                     | some sc => getField sc "name"
                     | none => none) (.jstr "Unknown"))])]

/-- The `uniqueStatuses` map key `status.id`. -/
def statusIdOf (s : Json) : Json := rawField s "id"

/-- The `uniqueStatuses` dedup loop: first occurrence of each `status.id`
wins, in insertion order (JS `Map`). -/
def collectStatuses (seen : List Json) : List Json → List Json
  | [] => []
  | s :: rest =>
      if jsonMem (statusIdOf s) seen then collectStatuses seen rest
      else statusEntryJson s :: collectStatuses (statusIdOf s :: seen) rest

/-- The `issueTypeStatuses.statuses && Array.isArray(...)` guard of the
statuses loop. -/
def statusesListOf (issueTypeStatuses : Json) : List Json :=
  match getField issueTypeStatuses "statuses" with
  | some (.jarr ss) => ss
  | _ => []

/-- One custom-field entry of the metadata block. -/
def customFieldEntryJson (fieldId : String) (field : Json) : Json :=
  .jobj [("id", .jstr fieldId),
         ("name", rawField field "name"),
         ("type",
          jsOrDefault
            (match getField field "schema" with
             | some s => getField s "type"
             | none => none) (.jstr "unknown")),
         ("description",
          jsOrNull
            (match getField field "operations" with
             | some (.jarr (op :: _)) => some op
             | _ => none)),
         ("required", jsOrDefault (getField field "required") (.jbool false))]

/-- The `customFields` map loop: entries whose id starts with
`customfield_`, first occurrence per id, in insertion order. -/
def collectCustomFields (seen : List String) : List (String × Json) → List Json
  | [] => []
  | (fid, field) :: rest =>
      if fid.startsWith "customfield_" && !(seen.contains fid) then
        customFieldEntryJson fid field :: collectCustomFields (fid :: seen) rest
      else collectCustomFields seen rest

/-- The `if (issueType.fields)` read of one create-meta issue type. -/
def fieldsEntriesOf (issueType : Json) : List (String × Json) :=
  match getField issueType "fields" with
  | some (.jobj fs) => fs
  | _ => []

/-- The `metadata.issueTypes` segment (`if (projectData.issueTypes)` then
map; array-or-absent shapes per the interface, like `errorMessagesOf`). -/
def issueTypesSegment (projectData : Json) : List (String × Json) :=
  match getField projectData "issueTypes" with
  | some (.jarr ts) => [("issueTypes", .jarr (ts.map issueTypeEntryJson))]
  | _ => []

/-- The `metadata.components` segment. -/
def componentsSegment (projectData : Json) : List (String × Json) :=
  match getField projectData "components" with
  | some (.jarr cs) => [("components", .jarr (cs.map componentEntryJson))]
  | _ => []

/-- The `metadata.versions` segment. -/
def versionsSegment (projectData : Json) : List (String × Json) :=
  match getField projectData "versions" with
  | some (.jarr vs) => [("versions", .jarr (vs.map versionEntryJson))]
  | _ => []

/-- The `metadata.priorities` segment: set only when the priorities call
resolved with an array; a rejection is swallowed by the inner `catch`. -/
def prioritiesSegment (r : Except String Json) : List (String × Json) :=
  match r with
  | .ok (.jarr ps) => [("priorities", .jarr (ps.map priorityEntryJson))]
  | _ => []

/-- The `metadata.statuses` segment: set only when the statuses call
resolved with an array; rejects are swallowed. -/
def statusesSegment (r : Except String Json) : List (String × Json) :=
  match r with
  | .ok (.jarr its) =>
      [("statuses", .jarr (collectStatuses [] (its.flatMap statusesListOf)))]
  | _ => []

/-- The `metadata.customFields` segment: object-like create-meta with a
non-empty `projects` array whose first project has a non-empty
`issuetypes` array; rejects are swallowed. -/
def customFieldsSegment (r : Except String Json) : List (String × Json) :=
  match r with
  | .ok cm =>
      match getField cm "projects" with
      | some (.jarr (proj :: _)) =>
          match getField proj "issuetypes" with
          | some (.jarr (it :: its)) =>
              [("customFields",
                .jarr (collectCustomFields [] ((it :: its).flatMap fieldsEntriesOf)))]
          | _ => []
      | _ => []
  | .error _ => []

/-- The metadata block, from the project data and the three follow-up
calls' outcomes.  Its enclosing `try`'s `catch` (which would set
`metadataError`) only fires on `TypeError`s from shapes outside the
declared interface, so it is not reachable in the model. -/
def projectMetadataJson (projectData : Json)
    (priorities statuses createMeta : Except String Json) : Json :=
  .jobj (issueTypesSegment projectData ++ componentsSegment projectData ++
    versionsSegment projectData ++ prioritiesSegment priorities ++
    statusesSegment statuses ++ customFieldsSegment createMeta)

/-- The `success: false` payload of `getProjectConfig`'s `catch`. -/
def projectConfigErrorJson (projectKey errMsg : String) : Json :=
  .jobj [("success", .jbool false), ("error", .jstr errMsg), ("projectKey", .jstr projectKey)]

/-- Embeds `getProjectConfig`: the expanded project GET; a falsy or
non-object response throws `not found or invalid response` into the
handler's own `catch`; the project summary is reshaped and, when
`includeMetadata`, the priorities, statuses and create-meta calls are made
(their failures swallowed by inner `catch`es, never failing the
operation); the outer `catch` turns any thrown error into a
`success: false` payload carrying the message and the project key. -/
def getProjectConfig (env : JiraEnv) (p : GetProjectConfigParams) : Json × List JiraRequest :=
  match env (projectConfigRequest p.projectKey) with
  | .error e => (projectConfigErrorJson p.projectKey e, [projectConfigRequest p.projectKey])
  | .ok project =>
      if isObjectLike project then
        if p.includeMetadata then
          (.jobj [("success", .jbool true),
                  ("project", projectBlockJson project),
                  ("metadata",
                   projectMetadataJson project (env prioritiesRequest)
                     (env (projectStatusesRequest p.projectKey))
                     (env (createMetaRequest p.projectKey)))],
           [projectConfigRequest p.projectKey, prioritiesRequest,
            projectStatusesRequest p.projectKey, createMetaRequest p.projectKey])
        else
          (.jobj [("success", .jbool true), ("project", projectBlockJson project)],
           [projectConfigRequest p.projectKey])
      else
        (projectConfigErrorJson p.projectKey
           ("Project " ++ p.projectKey ++ " not found or invalid response"),
         [projectConfigRequest p.projectKey])

/-! ### updateJiraIssue (operations/update.ts) -/

/-- The special `fields.status` input of `UpdateFieldsSchema`. -/
structure StatusFieldParams where
  name : String
  comment : Option String
  resolution : Option String

/-- The parsed `UpdateFieldsSchema` input; object-valued schema fields are
reduced to the data they carry (`{name}` objects to the name). -/
structure UpdateFieldsParams where
  summary : Option String
  description : Option String
  assignee : Option String
  priority : Option String
  labels : Option (List String)
  components : Option (List String)
  versions : Option (List String)
  customfield_10000 : Option (List (String × Json))
  status : Option StatusFieldParams
  customfield_11800 : Option String

/-- One entry of the `linkedIssues` input. -/
structure LinkedIssueParams where
  fromIssueKey : String
  toIssueKey : String
  type : String

/-- The parsed `UpdateJiraIssueSchema` input. -/
structure UpdateParams where
  issueIdOrKey : String
  fields : Option UpdateFieldsParams
  update : Option (List (String × Json))
  linkedIssues : Option (List LinkedIssueParams)

/-- The initial GET of the current labels. -/
def updateGetLabelsRequest (issueIdOrKey : String) : JiraRequest :=
  ⟨"issue/" ++ issueIdOrKey ++ "?fields=labels", "GET", none⟩

/-- The `currentIssue.fields?.labels || []` read.  A truthy non-array
`labels` value makes the subsequent `.map` raise a `TypeError` in the JS,
modelled as `.error`. -/
def extractExistingLabels (currentIssue : Json) : Except String (List Json) :=
  match getField currentIssue "fields" with
  | some fields =>
      match getField fields "labels" with
      | some (.jarr ls) => .ok ls
      | some v => if jsTruthy v then .error "existingLabels.map is not a function" else .ok []
      | none => .ok []
  | none => .ok []

/-- The per-entry read `typeof label === "string" ? label : label.name
|| ""` of the existing labels. -/
def labelNameOf (label : Json) : Json :=
  match label with
  | .jstr s => .jstr s
  | _ =>
      match getField label "name" with
      | some v => if jsTruthy v then v else .jstr ""
      | none => .jstr ""

/-- Deduplication keeping first occurrences: `[...new Set(l)]`. -/
def dedupFirstAux (seen : List Json) : List Json → List Json
  | [] => []
  | x :: xs =>
      if jsonMem x seen then dedupFirstAux seen xs
      else x :: dedupFirstAux (x :: seen) xs

def dedupFirst (l : List Json) : List Json := dedupFirstAux [] l

/-- The caller-supplied labels, `fieldsWithoutStatus.labels || []`,
as JSON strings. -/
def suppliedLabels (fields : Option UpdateFieldsParams) : List Json :=
  (match fields with
   | some f => f.labels.getD []
   | none => []).map Json.jstr

/-- The merged label list `[...new Set([...existingLabelNames,
...newLabels])]`. -/
def mergedLabels (existing : List Json) (fields : Option UpdateFieldsParams) : List Json :=
  dedupFirst (existing.map labelNameOf ++ suppliedLabels fields)

/-- The JSON of `fieldsWithoutStatus`: the supplied fields with `status`
deleted and `labels` set to the merged list (hence always present).
JS object key order is modelled as the schema's declaration order. -/
def updateFieldsJson (fields : Option UpdateFieldsParams) (allLabels : List Json) : Json :=
  let f := fields.getD ⟨none, none, none, none, none, none, none, none, none, none⟩
  .jobj
    ((match f.summary with
      | some s => [("summary", Json.jstr s)]
      | none => []) ++
     (match f.description with
      | some s => [("description", Json.jstr s)]
      | none => []) ++
     (match f.assignee with
      | some n => [("assignee", Json.jobj [("name", .jstr n)])]
      | none => []) ++
     (match f.priority with
      | some n => [("priority", Json.jobj [("name", .jstr n)])]
      | none => []) ++
     [("labels", Json.jarr allLabels)] ++
     (match f.components with
      | some cs => [("components", Json.jarr (cs.map (fun n => .jobj [("name", .jstr n)])))]
      | none => []) ++
     (match f.versions with
      | some vs => [("versions", Json.jarr (vs.map (fun n => .jobj [("name", .jstr n)])))]
      | none => []) ++
     (match f.customfield_10000 with
      | some m => [("customfield_10000", Json.jobj m)]
      | none => []) ++
     (match f.customfield_11800 with
      | some s => [("customfield_11800", Json.jstr s)]
      | none => []))

/-- Number of top-level keys of an object (`Object.keys(o).length`). -/
def topFieldCount : Json → Nat
  | .jobj fs => fs.length
  | _ => 0

/-- Top-level key list of an object (`Object.keys(o)`). -/
def topFieldKeys : Json → List String
  | .jobj fs => fs.map Prod.fst
  | _ => []

/-- The PUT issued for the field update. -/
def updatePutRequest (issueIdOrKey : String) (fieldsJson : Json)
    (update : Option (List (String × Json))) : JiraRequest :=
  ⟨"issue/" ++ issueIdOrKey, "PUT",
   some (.jobj [("fields", fieldsJson), ("update", .jobj (update.getD []))])⟩

/-- The POST issued for one linked-issue creation: the entry's `type`,
its `fromIssueKey` as `outwardIssue` and its `toIssueKey` as
`inwardIssue`. -/
def linkRequest (link : LinkedIssueParams) : JiraRequest :=
  ⟨"issueLink", "POST",
   some (.jobj [("type", .jobj [("name", .jstr link.type)]),
                ("outwardIssue", .jobj [("key", .jstr link.fromIssueKey)]),
                ("inwardIssue", .jobj [("key", .jstr link.toIssueKey)])])⟩

/-- The rejection `Promise.all` settles with: the first rejected promise
in dispatch order (the model is deterministic, so "first to reject" is
first in list order). -/
def firstError : List (Except String Json) → Option String
  | [] => none
  | .error e :: _ => some e
  | .ok _ :: rest => firstError rest

/-- The tail of `updateJiraIssue` after fields and links: the optional
status transition through `transitionJiraStatusByName`, whose failure
payload is returned as-is and whose success is rewrapped. -/
def updateHandleStatus (env : JiraEnv) (issueIdOrKey : String)
    (statusField : Option StatusFieldParams) (traceSoFar : List JiraRequest) :
    OpResult × List JiraRequest :=
  match statusField with
  | none =>
      (formatResponse true ("Successfully updated issue " ++ issueIdOrKey) none, traceSoFar)
  | some st =>
      let r := transitionJiraStatusByName env issueIdOrKey st.name st.comment st.resolution
      if r.1.success then
        (formatResponse true
          ("Successfully updated issue " ++ issueIdOrKey ++ " and transitioned to status \"" ++
            st.name ++ "\"") r.1.data, traceSoFar ++ r.2)
      else (r.1, traceSoFar ++ r.2)

/-- The linked-issues fan-out of `updateJiraIssue`: when a non-empty list
is supplied, one `issueLink` POST per entry is dispatched; the joint await
(`Promise.all`) fails the whole operation with the first rejection, which
the outer `catch` turns into a single failure payload. -/
def updateHandleLinks (env : JiraEnv) (issueIdOrKey : String)
    (linkedIssues : Option (List LinkedIssueParams))
    (statusField : Option StatusFieldParams) (traceSoFar : List JiraRequest) :
    OpResult × List JiraRequest :=
  match linkedIssues with
  | some links =>
      if links.length > 0 then
        let reqs := links.map linkRequest
        let results := reqs.map env
        let trace := traceSoFar ++ reqs
        match firstError results with
        | some e => (handleOperationError e "updating issue", trace)
        | none => updateHandleStatus env issueIdOrKey statusField trace
      else updateHandleStatus env issueIdOrKey statusField traceSoFar
  | none => updateHandleStatus env issueIdOrKey statusField traceSoFar

/-- The `fields.status` input extracted for separate handling. -/
def statusFieldOf (p : UpdateParams) : Option StatusFieldParams :=
  match p.fields with
  | some f => f.status
  | none => none

/-- The PUT guard `Object.keys(fieldsWithoutStatus).length > 0 ||
(update && Object.keys(update).length > 0)`. -/
def putNeeded (p : UpdateParams) (fieldsJson : Json) : Bool :=
  decide (topFieldCount fieldsJson > 0) ||
    (match p.update with
     | some u => decide (u.length > 0)
     | none => false)

/-- The middle of `updateJiraIssue` once the existing labels are known:
the PUT of the merged fields (when the guard holds — it always does, the
merged `labels` key being always present), then links, then status. -/
def updateWithLabels (env : JiraEnv) (p : UpdateParams) (existingLabels : List Json) :
    OpResult × List JiraRequest :=
  if putNeeded p (updateFieldsJson p.fields (mergedLabels existingLabels p.fields)) then
    match env (updatePutRequest p.issueIdOrKey
        (updateFieldsJson p.fields (mergedLabels existingLabels p.fields)) p.update) with
    | .error e =>
        (handleOperationError e "updating issue",
         [updateGetLabelsRequest p.issueIdOrKey,
          updatePutRequest p.issueIdOrKey
            (updateFieldsJson p.fields (mergedLabels existingLabels p.fields)) p.update])
    | .ok _ =>
        updateHandleLinks env p.issueIdOrKey p.linkedIssues (statusFieldOf p)
          [updateGetLabelsRequest p.issueIdOrKey,
           updatePutRequest p.issueIdOrKey
             (updateFieldsJson p.fields (mergedLabels existingLabels p.fields)) p.update]
  else
    updateHandleLinks env p.issueIdOrKey p.linkedIssues (statusFieldOf p)
      [updateGetLabelsRequest p.issueIdOrKey]

/-- Embeds `updateJiraIssue`: GET the current labels, merge, PUT the
fields (the merged `labels` key makes the field object non-empty, so the
PUT is always issued), fan out the linked-issue creations, then handle
the status transition; every thrown error is caught into an
`Error updating issue:` payload. -/
def updateJiraIssue (env : JiraEnv) (p : UpdateParams) : OpResult × List JiraRequest :=
  match env (updateGetLabelsRequest p.issueIdOrKey) with
  | .error e => (handleOperationError e "updating issue", [updateGetLabelsRequest p.issueIdOrKey])
  | .ok currentIssue =>
      match extractExistingLabels currentIssue with
      | .error e =>
          (handleOperationError e "updating issue", [updateGetLabelsRequest p.issueIdOrKey])
      | .ok existingLabels => updateWithLabels env p existingLabels

/-! ### Concrete inputs used to evaluate the definitions -/

/-- An HTTP layer that resolves every request with `null`. -/
def okEnv : JiraEnv := fun _ => .ok .jnull

/-- An HTTP layer that rejects every request with message `boom`. -/
def failEnv : JiraEnv := fun _ => .error "boom"

/-- A transition request supplying the empty string as comment. -/
def emptyCommentParams : TransitionParams := ⟨"AIF-1", "21", some "", none, none⟩

/-- A transition request supplying a non-empty comment. -/
def commentedParams : TransitionParams := ⟨"AIF-1", "21", some "done", none, none⟩

/-- A search whose jql is not an issue key. -/
def noKeySearch : SearchParams :=
  ⟨"project = AIF order by created", none, none, none, none, none, none⟩

/-- A search whose jql is a bare issue key. -/
def keySearch : SearchParams := ⟨"AIF-17", none, none, none, none, none, none⟩

/-- A 204 response carrying an XML content type. -/
def xml204Response : HttpResponse := ⟨204, some "application/xml", "<status/>", none⟩

/-- An HTTP layer that rejects only the `issueLink` POSTs. -/
def linkFailEnv : JiraEnv :=
  fun r => if r.path = "issueLink" then .error "link down" else .ok (.jobj [])

/-- An update carrying one linked issue and nothing else. -/
def linkedUpdateParams : UpdateParams :=
  ⟨"AIF-1", none, none, some [⟨"AIF-1", "AIF-2", "Blocks"⟩]⟩

/-- An issue whose current labels are `["old"]`. -/
def labelsIssueJson : Json := .jobj [("fields", .jobj [("labels", .jarr [.jstr "old"])])]

/-- An HTTP layer that resolves every request with `labelsIssueJson`. -/
def labelsEnv : JiraEnv := fun _ => .ok labelsIssueJson

/-- An update supplying labels `["new", "old"]` (one fresh, one already
present). -/
def labelsUpdateParams : UpdateParams :=
  ⟨"AIF-3", some ⟨none, none, none, none, some ["new", "old"], none, none, none, none, none⟩,
   none, none⟩

/-! ### Helper lemmas -/

mutual
theorem jsonBEq_iff : ∀ a b : Json, jsonBEq a b = true ↔ a = b
  | .jnull, b => by cases b <;> simp [jsonBEq]
  | .jbool x, b => by cases b <;> simp [jsonBEq]
  | .jnum x, b => by cases b <;> simp [jsonBEq]
  | .jstr x, b => by cases b <;> simp [jsonBEq]
  | .jarr xs, b => by
      cases b <;> simp [jsonBEq]
      exact jsonListBEq_iff xs _
  | .jobj fs, b => by
      cases b <;> simp [jsonBEq]
      exact jsonFieldsBEq_iff fs _

theorem jsonListBEq_iff : ∀ a b : List Json, jsonListBEq a b = true ↔ a = b
  | [], b => by cases b <;> simp [jsonListBEq]
  | x :: xs, b => by
      cases b with
      | nil => simp [jsonListBEq]
      | cons y ys =>
          simp [jsonListBEq, Bool.and_eq_true, jsonBEq_iff x y, jsonListBEq_iff xs ys]

theorem jsonFieldsBEq_iff : ∀ a b : List (String × Json), jsonFieldsBEq a b = true ↔ a = b
  | [], b => by cases b <;> simp [jsonFieldsBEq]
  | (k, v) :: xs, b => by
      cases b with
      | nil => simp [jsonFieldsBEq]
      | cons kw ys =>
          cases kw with
          | mk l w =>
              simp [jsonFieldsBEq, Bool.and_eq_true, jsonBEq_iff v w,
                jsonFieldsBEq_iff xs ys, and_assoc]
end

theorem jsonBEq_refl (a : Json) : jsonBEq a a = true := (jsonBEq_iff a a).mpr rfl

theorem jsonMem_iff (x : Json) (l : List Json) : jsonMem x l = true ↔ x ∈ l := by
  simp [jsonMem, List.any_eq_true, jsonBEq_iff]

mutual
theorem redactionOk_sanitize : ∀ j : Json, redactionOk (sanitizeJson j) = true
  | .jnull => rfl
  | .jbool _ => rfl
  | .jnum _ => rfl
  | .jstr _ => rfl
  | .jarr xs => by simp [sanitizeJson, redactionOk, redactionOk_sanitizeList xs]
  | .jobj fs => by simp [sanitizeJson, redactionOk, redactionOk_sanitizeFields fs]

theorem redactionOk_sanitizeList : ∀ xs : List Json, redactionOkList (sanitizeList xs) = true
  | [] => rfl
  | x :: xs => by
      simp [sanitizeList, redactionOkList, redactionOk_sanitize x, redactionOk_sanitizeList xs]

theorem redactionOk_sanitizeFields :
    ∀ fs : List (String × Json), redactionOkFields (sanitizeFields fs) = true
  | [] => rfl
  | (k, v) :: fs => by
      by_cases h : isSensitiveKey k = true <;>
        simp [sanitizeFields, redactionOkFields, h, jsonBEq_refl,
          redactionOk_sanitize v, redactionOk_sanitizeFields fs]
end

theorem objSet_objSet_same (m : List (String × String)) (k v w : String) :
    objSet (objSet m k v) k w = objSet m k w := by
  induction m with
  | nil => simp [objSet]
  | cons kv rest ih =>
      by_cases h : kv.1 = k
      · simp [objSet, h]
      · simp [objSet, h, ih]

theorem lookupHeader_objSet_same (m : List (String × String)) (k v : String) :
    lookupHeader (objSet m k v) k = some v := by
  induction m with
  | nil => simp [objSet, lookupHeader]
  | cons kv rest ih =>
      by_cases h : kv.1 = k
      · simp [objSet, h, lookupHeader]
      · simp [objSet, h, lookupHeader, ih]

theorem buildUrl_foldl_filterMap (params : List (String × Option ParamValue))
    (acc : List (String × String)) :
    params.foldl
      (fun acc kv =>
        match kv.2 with
        | some v => acc ++ [(kv.1, paramToString v)]
        | none => acc) acc =
      acc ++ params.filterMap (fun kv => kv.2.map (fun v => (kv.1, paramToString v))) := by
  induction params generalizing acc with
  | nil => simp
  | cons kv rest ih =>
      cases kv with
      | mk k ov => cases ov <;> simp [ih, List.filterMap_cons]

theorem lookupField_append_of_no_key (l₁ l₂ : List (String × Json)) (k : String)
    (h : ∀ kv ∈ l₁, kv.1 ≠ k) : lookupField (l₁ ++ l₂) k = lookupField l₂ k := by
  induction l₁ with
  | nil => simp
  | cons kv rest ih =>
      have hk : kv.1 ≠ k := h kv (by simp)
      simp only [List.cons_append, lookupField, if_neg hk]
      exact ih (fun kv' hm => h kv' (by simp [hm]))

theorem dedupFirstAux_mem (x : Json) :
    ∀ (l : List Json) (seen : List Json),
      x ∈ dedupFirstAux seen l ↔ x ∈ l ∧ x ∉ seen
  | [], seen => by simp [dedupFirstAux]
  | y :: ys, seen => by
      by_cases h : jsonMem y seen = true
      · rw [jsonMem_iff] at h
        simp only [dedupFirstAux, jsonMem_iff, if_pos ((jsonMem_iff y seen).mpr h)]
        rw [dedupFirstAux_mem x ys seen]
        constructor
        · exact fun ⟨h1, h2⟩ => ⟨List.mem_cons_of_mem y h1, h2⟩
        · rintro ⟨h1, h2⟩
          rcases List.mem_cons.mp h1 with rfl | h1
          · exact absurd h h2
          · exact ⟨h1, h2⟩
      · have h' : y ∉ seen := fun hc => h ((jsonMem_iff y seen).mpr hc)
        simp only [dedupFirstAux, if_neg h]
        rw [List.mem_cons]
        constructor
        · rintro (rfl | hx)
          · exact ⟨List.mem_cons_self _ _, h'⟩
          · have := (dedupFirstAux_mem x ys (y :: seen)).mp hx
            exact ⟨List.mem_cons_of_mem y this.1,
              fun hc => this.2 (List.mem_cons_of_mem y hc)⟩
        · rintro ⟨h1, h2⟩
          rcases List.mem_cons.mp h1 with rfl | h1
          · exact Or.inl rfl
          · by_cases hxy : x = y
            · exact Or.inl hxy
            · exact Or.inr ((dedupFirstAux_mem x ys (y :: seen)).mpr
                ⟨h1, fun hc => (List.mem_cons.mp hc).elim hxy h2⟩)

theorem dedupFirstAux_nodup :
    ∀ (l : List Json) (seen : List Json), (dedupFirstAux seen l).Nodup
  | [], seen => by simp [dedupFirstAux]
  | y :: ys, seen => by
      by_cases h : jsonMem y seen = true
      · simpa only [dedupFirstAux, if_pos h] using dedupFirstAux_nodup ys seen
      · simp only [dedupFirstAux, if_neg h, List.nodup_cons]
        refine ⟨fun hc => ?_, dedupFirstAux_nodup ys (y :: seen)⟩
        exact ((dedupFirstAux_mem y ys (y :: seen)).mp hc).2 (List.mem_cons_self y seen)

theorem dedupFirst_mem (x : Json) (l : List Json) : x ∈ dedupFirst l ↔ x ∈ l := by
  rw [dedupFirst, dedupFirstAux_mem]
  simp

theorem dedupFirst_nodup (l : List Json) : (dedupFirst l).Nodup :=
  dedupFirstAux_nodup l []

theorem firstError_mem (e : String) :
    ∀ rs : List (Except String Json), firstError rs = some e → .error e ∈ rs
  | [], h => by simp [firstError] at h
  | .error e' :: rest, h => by
      simp only [firstError, Option.some.injEq] at h
      simp [h]
  | .ok v :: rest, h => by
      simp only [firstError] at h
      exact List.mem_cons_of_mem _ (firstError_mem e rest h)

theorem updateHandleStatus_trace (env : JiraEnv) (issueIdOrKey : String)
    (statusField : Option StatusFieldParams) (traceSoFar : List JiraRequest) :
    ∃ rest, (updateHandleStatus env issueIdOrKey statusField traceSoFar).2 = traceSoFar ++ rest := by
  cases statusField with
  | none => exact ⟨[], by simp [updateHandleStatus]⟩
  | some st =>
      refine ⟨(transitionJiraStatusByName env issueIdOrKey st.name st.comment st.resolution).2, ?_⟩
      by_cases h : (transitionJiraStatusByName env issueIdOrKey st.name st.comment st.resolution).1.success = true <;>
        simp [updateHandleStatus, h]

theorem topFieldCount_pos_of_getField (j : Json) (k : String) (v : Json)
    (h : getField j k = some v) : 0 < topFieldCount j := by
  cases j with
  | jobj fs =>
      cases fs with
      | nil => simp [getField, lookupField] at h
      | cons kv rest => simp [topFieldCount]
  | jnull => simp [getField] at h
  | jbool b => simp [getField] at h
  | jnum n => simp [getField] at h
  | jstr s => simp [getField] at h
  | jarr xs => simp [getField] at h

theorem getField_updateFieldsJson_labels (fields : Option UpdateFieldsParams)
    (allLabels : List Json) :
    getField (updateFieldsJson fields allLabels) "labels" = some (.jarr allLabels) := by
  cases fields with
  | none => rfl
  | some f =>
      rcases f with ⟨s, d, a, pr, lb, c, v, c10, st, c11⟩
      cases s <;> cases d <;> cases a <;> cases pr <;> rfl

theorem putNeeded_true (p : UpdateParams) (allLabels : List Json) :
    putNeeded p (updateFieldsJson p.fields allLabels) = true := by
  have hpos := topFieldCount_pos_of_getField _ _ _ (getField_updateFieldsJson_labels p.fields allLabels)
  simp [putNeeded, hpos]

/-! ### Claim C2 — status-to-error-kind taxonomy -/

/-- Claim C2, counterexample: the claim quantifies over every response
body, but a non-object body is classified as the generic `JiraError` even
for status 401 (where the claim demands the authentication kind), with the
fixed message `Unknown Jira API error`. -/
theorem c2_taxonomy_counterexample :
    (createJiraError 401 (.jstr "Unauthorized")).kind = .generic ∧
    (createJiraError 401 (.jstr "Unauthorized")).kind ≠ .authentication ∧
    (createJiraError 401 (.jstr "Unauthorized")).message = "Unknown Jira API error" :=
  ⟨rfl, by decide, rfl⟩

/-- Claim C2 (amended): for every non-2xx status and every object-like
response body, `createJiraError` classifies the status exactly as the
spec's taxonomy (`specStatusToKind`), keeps the status, and derives the
message from the response's `errorMessages`, `errors` or `message` fields
(the 404 class adds its `Resource not found:` prelude); non-object bodies
always yield the generic kind. -/
theorem c2_error_taxonomy (status : Nat) (response : Json)
    (hobj : isObjectLike response = true) (_h2xx : status < 200 ∨ 299 < status) :
    (createJiraError status response).kind = specStatusToKind status ∧
    (createJiraError status response).status = status ∧
    (createJiraError status response).message =
      (if status = 404 then "Resource not found: " ++ deriveErrorMessage response
       else deriveErrorMessage response) := by
  unfold createJiraError specStatusToKind
  rw [hobj]
  simp only [if_true]
  split_ifs with h1 h2 h3 h4 h5 h6 <;>
    simp_all [mkJiraAuthenticationError, mkJiraPermissionError, mkJiraResourceNotFoundError,
      mkJiraConflictError, mkJiraValidationError, mkJiraRateLimitError, mkJiraError]

/-- Witness for C2 at status 500 with an `errorMessages` body. -/
theorem c2_error_taxonomy_witness :
    (createJiraError 500 (.jobj [("errorMessages", .jarr [.jstr "boom"])])).kind =
        specStatusToKind 500 ∧
    (createJiraError 500 (.jobj [("errorMessages", .jarr [.jstr "boom"])])).status = 500 :=
  ⟨(c2_error_taxonomy 500 (.jobj [("errorMessages", .jarr [.jstr "boom"])]) rfl
      (by decide)).1,
   (c2_error_taxonomy 500 (.jobj [("errorMessages", .jarr [.jstr "boom"])]) rfl
      (by decide)).2.1⟩

/-! ### Claim C3 — Basic-Auth header construction -/

/-- Claim C5: every sensitive-keyed field of a logged response body is
redacted to `[REDACTED]` (at any nesting depth), and the logged `Headers:`
line is invariant under the token — two runs differing only in the token
value log the same header line. -/
theorem c5_redaction_and_header_noninterference :
    (∀ body : Json, redactionOk (sanitizeJson body) = true) ∧
    (∀ (optHeaders : List (String × String)) (email token : String),
        lookupHeader
          (objSet (requestHeaders optHeaders email token) "Authorization" "[REDACTED]")
          "Authorization" = some "[REDACTED]") ∧
    (∀ (optHeaders : List (String × String)) (email token1 token2 : String),
        loggedHeaderLine optHeaders email token1 = loggedHeaderLine optHeaders email token2) := by
  refine ⟨redactionOk_sanitize, ?_, ?_⟩
  · intro optHeaders email token
    exact lookupHeader_objSet_same _ _ _
  · intro optHeaders email t1 t2
    unfold loggedHeaderLine requestHeaders
    rw [objSet_objSet_same, objSet_objSet_same]

/-! ### Claim C7 — URL construction -/

/-- Claim C7: `buildUrl` joins the base URL and the path (with at most one
leading slash of the path stripped) by a single slash and appends exactly
the parameters whose value is defined, in entry order, each stringified. -/
theorem c7_buildUrl_contract (base path : String) (params : List (String × Option ParamValue)) :
    buildUrl base path params =
      base ++ "/" ++ stripOneLeadingSlash path ++
        renderQueryPairs
          (params.filterMap (fun kv => kv.2.map (fun v => (kv.1, paramToString v)))) ∧
    (stripOneLeadingSlash path).data =
      (if path.data.head? = some '/' then path.data.tail else path.data) := by
  constructor
  · unfold buildUrl
    rw [buildUrl_foldl_filterMap]
    simp
  · unfold stripOneLeadingSlash
    cases hd : path.data with
    | nil => simp [hd]
    | cons c rest => by_cases hc : c = '/' <;> simp [hc, hd]

/-! ### Claim C10 — response handling -/

/-- Claim C10, counterexample: a 204 response with an XML content type
does not raise an error — the 204 check precedes the content-type checks
in both `parseResponseBody` and `jiraRequest`, so the claim's clause that
an `application/xml` content type always raises is false at this input. -/
theorem c10_xml_counterexample :
    parseResponseBody xml204Response = .ok successJson ∧
    processJiraResponse xml204Response = .ok successJson :=
  ⟨rfl, rfl⟩

/-- Claim C10 (amended): a 204 yields `{success: true}`; a JSON-typed
response with empty or unparseable text parses to `{success: true}`; a
non-204 response whose content type is `application/xml` raises a plain
error; classified `JiraError`s are raised only for statuses outside the
2xx range, and for every such status the parsed body is wrapped in
`createJiraError`. -/
theorem c10_response_handling (r : HttpResponse) :
    (r.status = 204 →
        parseResponseBody r = .ok successJson ∧ processJiraResponse r = .ok successJson) ∧
    (∀ ct, r.contentType = some ct → strContains ct "application/json" = true →
        r.body = "" → parseResponseBody r = .ok successJson) ∧
    (∀ ct, r.contentType = some ct → strContains ct "application/json" = true →
        r.jsonParse = none → parseResponseBody r = .ok successJson) ∧
    (r.status ≠ 204 → r.contentType = some "application/xml" →
        ∃ m, parseResponseBody r = .error m ∧ processJiraResponse r = .error (.plainError m)) ∧
    (∀ e, processJiraResponse r = .error (.jiraError e) → statusOk r.status = false) ∧
    (statusOk r.status = false → ∀ body, parseResponseBody r = .ok body →
        processJiraResponse r = .error (.jiraError (createJiraError r.status body))) := by
  have hxj : strContains "application/xml" "application/json" = false := by decide
  have hxx : strContains "application/xml" "application/xml" = true := by decide
  refine ⟨?_, ?_, ?_, ?_, ?_, ?_⟩
  · intro h204
    unfold parseResponseBody processJiraResponse
    simp [h204]
  · intro ct hct hj hb
    unfold parseResponseBody
    by_cases h204 : r.status = 204
    · simp [h204]
    · simp [h204, hct, hj, hb]
  · intro ct hct hj hp
    unfold parseResponseBody
    by_cases h204 : r.status = 204
    · simp [h204]
    · by_cases hb : r.body = ""
      · simp [h204, hct, hj, hb]
      · simp [h204, hct, hj, hb, hp]
  · intro h204 hct
    refine ⟨"Received XML response instead of JSON. This usually indicates an authentication or API endpoint issue.", ?_, ?_⟩
    · unfold parseResponseBody
      simp [h204, hct, hxj, hxx]
    · unfold processJiraResponse parseResponseBody
      simp [h204, hct, hxj, hxx]
  · intro e h
    unfold processJiraResponse at h
    by_cases h204 : r.status = 204
    · simp [h204] at h
    · rw [if_neg h204] at h
      cases hp : parseResponseBody r with
      | error m => rw [hp] at h; simp at h
      | ok body =>
          rw [hp] at h
          by_cases hok : statusOk r.status
          · simp [hok] at h
          · simpa using Bool.not_eq_true _ ▸ (Bool.eq_false_iff.mpr hok)
  · intro hfail body hbody
    have h204 : r.status ≠ 204 := by
      intro heq
      rw [heq] at hfail
      simp [statusOk] at hfail
    unfold processJiraResponse
    simp [h204, hbody, hfail]

/-- Witness for C10 at a 500 JSON response with empty body: the empty
body parses to `{success: true}` and the non-2xx status wraps it in a
classified error. -/
theorem c10_response_handling_witness :
    processJiraResponse ⟨500, some "application/json", "", none⟩ =
      .error (.jiraError (createJiraError 500 successJson)) := by
  have h := c10_response_handling ⟨500, some "application/json", "", none⟩
  exact h.2.2.2.2.2 (by decide) successJson (h.2.1 "application/json" rfl (by decide) rfl)

/-! ### Claim C1 — transition then separate comment -/

/-- Claim C1, counterexample: the claim's "if and only if a comment string
was supplied" fails for the supplied empty string — `if (comment)` is
false for `""`, so no comment request is issued (the trace holds only the
transition POST) and the success message does not mention a comment. -/
theorem c1_transition_counterexample :
    emptyCommentParams.comment.isSome = true ∧
    (transitionJiraStatus okEnv emptyCommentParams).2 =
      [transitionRequest emptyCommentParams] ∧
    (transitionJiraStatus okEnv emptyCommentParams).1.message =
      "Successfully transitioned status of issue AIF-1" :=
  ⟨rfl, rfl, rfl⟩

/-- Claim C1 (amended): the transition POST's body is
`createTransitionRequestBody` of the id/resolution/fields — independent of
the comment and holding only a `transition` key plus an optional `fields`
key; a separate comment request follows if and only if a non-empty comment
string was supplied; and when the transition call succeeded the payload
reports `success: true` whatever the comment call did. -/
theorem c1_transition_comment_decoupling (env : JiraEnv) (p : TransitionParams) (resp : Json)
    (hok : env (transitionRequest p) = .ok resp) :
    (transitionRequest p).body =
      some (createTransitionRequestBody p.transitionId p.resolution p.fields) ∧
    (∀ c, transitionRequest { p with comment := c } = transitionRequest p) ∧
    (topFieldKeys (createTransitionRequestBody p.transitionId p.resolution p.fields) =
        ["transition"] ∨
      topFieldKeys (createTransitionRequestBody p.transitionId p.resolution p.fields) =
        ["transition", "fields"]) ∧
    (transitionJiraStatus env p).2 =
      (match p.comment with
       | some c =>
           if c = "" then [transitionRequest p]
           else [transitionRequest p, addCommentRequest p.issueIdOrKey ⟨c, none⟩]
       | none => [transitionRequest p]) ∧
    (transitionJiraStatus env p).1.success = true := by
  refine ⟨rfl, fun c => rfl, ?_, ?_, ?_⟩
  · unfold createTransitionRequestBody
    cases p.resolution <;> cases p.fields <;> simp [topFieldKeys]
  · unfold transitionJiraStatus
    dsimp only
    rw [hok]
    cases p.comment with
    | none => rfl
    | some c =>
        by_cases hc : c = ""
        · simp [hc]
        · simp only [if_neg hc]
          unfold addJiraComment
          dsimp only
          cases henv : env (addCommentRequest p.issueIdOrKey ⟨c, none⟩) <;> simp [henv]
  · unfold transitionJiraStatus
    dsimp only
    rw [hok]
    cases p.comment with
    | none => rfl
    | some c =>
        by_cases hc : c = ""
        · simp [hc, formatResponse]
        · simp only [if_neg hc]
          unfold addJiraComment
          dsimp only
          cases henv : env (addCommentRequest p.issueIdOrKey ⟨c, none⟩) <;>
            simp [henv, formatResponse]

/-- Witness for C1: a successful transition with a non-empty comment
issues the comment request and reports success. -/
theorem c1_transition_comment_decoupling_witness :
    (transitionJiraStatus okEnv commentedParams).2 =
      [transitionRequest commentedParams, addCommentRequest "AIF-1" ⟨"done", none⟩] ∧
    (transitionJiraStatus okEnv commentedParams).1.success = true := by
  have h := c1_transition_comment_decoupling okEnv commentedParams .jnull rfl
  exact ⟨h.2.2.2.1, h.2.2.2.2⟩

/-! ### Claim C4 — which handlers throw and which return payloads -/

/-- Claim C4, counterexample: on an HTTP failure whose message mentions
neither 404 nor 403, `getProjectComponents` re-throws the error instead of
returning a `success: false` payload, and `searchJiraIssues` propagates
the failed JQL search unchanged — both contradict "never propagate an
exception". -/
theorem c4_throwing_counterexample :
    (getProjectComponents failEnv "ASSETS").1 = .error "boom" ∧
    (searchJiraIssues "https://jira.example.com/rest/api/2" failEnv noKeySearch).1 =
      .error "boom" :=
  ⟨rfl, rfl⟩

/-- Claim C4 (amended): operations wrapped in a returning `try/catch`
(`transitionJiraStatus`, `addJiraComment`, `updateJiraIssue`, and
`getProjectConfig` for its project fetch — metadata sub-request failures
are swallowed and never fail it) turn an HTTP failure into a
`success: false` payload — but `getProjectComponents` re-throws (verbatim
when its message mentions neither 404 nor 403, with a translated not-found
or access-denied message otherwise) and `searchJiraIssues` propagates the
failed JQL search. -/
theorem c4_error_payloads_vs_throws (base : String) (env : JiraEnv) :
    (∀ p e, env (transitionRequest p) = .error e →
        (transitionJiraStatus env p).1 = handleOperationError e "transitioning status") ∧
    (∀ idOrKey c e, env (addCommentRequest idOrKey c) = .error e →
        (addJiraComment env idOrKey c).1 = ⟨false, e, none⟩) ∧
    (∀ p e, env (updateGetLabelsRequest p.issueIdOrKey) = .error e →
        (updateJiraIssue env p).1 = handleOperationError e "updating issue") ∧
    (∀ key e, env (componentsRequest key) = .error e →
        strContains e "404" = false → strContains e "403" = false →
        (getProjectComponents env key).1 = .error e) ∧
    (∀ key e, env (componentsRequest key) = .error e → strContains e "404" = true →
        (getProjectComponents env key).1 =
          .error ("Project '" ++ key ++ "' not found. Please verify the project key or ID.")) ∧
    (∀ p e, isIssueKeyJql p.jql = false → env (searchRequest base p) = .error e →
        (searchJiraIssues base env p).1 = .error e) ∧
    (∀ key e, env (componentsRequest key) = .error e →
        strContains e "404" = false → strContains e "403" = true →
        (getProjectComponents env key).1 =
          .error ("Access denied to project '" ++ key ++ "'. Please check your permissions.")) ∧
    (∀ key inc e, env (projectConfigRequest key) = .error e →
        (getProjectConfig env ⟨key, inc⟩).1 = projectConfigErrorJson key e) ∧
    (∀ key inc project, env (projectConfigRequest key) = .ok project →
        isObjectLike project = true →
        getField (getProjectConfig env ⟨key, inc⟩).1 "success" = some (.jbool true)) := by
  refine ⟨?_, ?_, ?_, ?_, ?_, ?_, ?_, ?_, ?_⟩
  · intro p e h
    unfold transitionJiraStatus
    dsimp only
    rw [h]
  · intro idOrKey c e h
    unfold addJiraComment
    dsimp only
    rw [h]
  · intro p e h
    unfold updateJiraIssue
    rw [h]
  · intro key e h h404 h403
    unfold getProjectComponents
    dsimp only
    rw [h]
    simp [h404, h403]
  · intro key e h h404
    unfold getProjectComponents
    dsimp only
    rw [h]
    simp [h404]
  · intro p e hkey h
    unfold searchJiraIssues
    rw [if_neg (by simp [hkey])]
    dsimp only
    rw [h]
  · intro key e h h404 h403
    unfold getProjectComponents
    dsimp only
    rw [h]
    simp [h404, h403]
  · intro key inc e h
    unfold getProjectConfig
    rw [h]
  · intro key inc project hok hobj
    unfold getProjectConfig
    rw [hok]
    dsimp only
    rw [if_pos hobj]
    cases inc <;> simp [getField, lookupField]

/-- Witness for C4: the failing transition call at a concrete environment
produces the failure payload. -/
theorem c4_error_payloads_vs_throws_witness :
    (transitionJiraStatus failEnv commentedParams).1 =
      handleOperationError "boom" "transitioning status" :=
  (c4_error_payloads_vs_throws "https://jira.example.com/rest/api/2" failEnv).1
    commentedParams "boom" rfl

/-! ### Claim C8 — issue-key fast path of search -/

/-- Claim C8: when the jql matches the issue-key pattern, the handler
first fetches `issue/<jql>` directly; on success it returns a one-element
search result having issued no JQL search, and only on failure does it
fall back to the JQL search endpoint.  The last conjunct ties the
`isIssueKeyJql` test to the regex `^[A-Z]+-\d+$`. -/
theorem c8_issue_key_fast_path (base : String) (env : JiraEnv) (p : SearchParams)
    (hkey : isIssueKeyJql p.jql = true) :
    (∀ issue, env (directIssueRequest p.jql) = .ok issue →
        searchJiraIssues base env p =
          (.ok (.jobj [("issues", .jarr [issue]), ("total", .jnum 1), ("maxResults", .jnum 1)]),
           [directIssueRequest p.jql])) ∧
    (∀ e, env (directIssueRequest p.jql) = .error e →
        searchJiraIssues base env p =
          (env (searchRequest base p), [directIssueRequest p.jql, searchRequest base p])) ∧
    (∃ up ds, p.jql.data = up ++ '-' :: ds ∧ up ≠ [] ∧ ds ≠ [] ∧
        up.all Char.isUpper = true ∧ ds.all Char.isDigit = true) := by
  refine ⟨?_, ?_, ?_⟩
  · intro issue h
    unfold searchJiraIssues
    rw [if_pos hkey]
    dsimp only
    rw [h]
  · intro e h
    unfold searchJiraIssues
    rw [if_pos hkey]
    dsimp only
    rw [h]
  · unfold isIssueKeyJql at hkey
    rw [Bool.and_eq_true, decide_eq_true_eq] at hkey
    obtain ⟨h1, h2⟩ := hkey
    cases hdrop : p.jql.data.dropWhile Char.isUpper with
    | nil => rw [hdrop] at h2; simp at h2
    | cons c ds =>
        rw [hdrop] at h2
        rw [Bool.and_eq_true, Bool.and_eq_true, decide_eq_true_eq, decide_eq_true_eq] at h2
        obtain ⟨hc, hds, hdig⟩ := h2
        refine ⟨p.jql.data.takeWhile Char.isUpper, ds, ?_, h1, hds, ?_, hdig⟩
        · rw [← hc, ← hdrop]
          exact (List.takeWhile_append_dropWhile Char.isUpper p.jql.data).symm
        · rw [List.all_eq_true]
          exact fun x hx => List.mem_takeWhile_imp hx

/-- Witness for C8: the direct fetch of `AIF-17` succeeds and yields the
one-element search result. -/
theorem c8_issue_key_fast_path_witness :
    searchJiraIssues "https://jira.example.com/rest/api/2" okEnv keySearch =
      (.ok (.jobj [("issues", .jarr [.jnull]), ("total", .jnum 1), ("maxResults", .jnum 1)]),
       [directIssueRequest "AIF-17"]) :=
  (c8_issue_key_fast_path "https://jira.example.com/rest/api/2" okEnv keySearch
    (by decide)).1 .jnull rfl

/-! ### Update-flow reduction lemmas -/

theorem updateJiraIssue_after_get (env : JiraEnv) (p : UpdateParams) (currentIssue : Json)
    (existing : List Json)
    (hget : env (updateGetLabelsRequest p.issueIdOrKey) = .ok currentIssue)
    (hlab : extractExistingLabels currentIssue = .ok existing) :
    updateJiraIssue env p = updateWithLabels env p existing := by
  unfold updateJiraIssue
  rw [hget]
  dsimp only
  rw [hlab]

theorem updateWithLabels_put (env : JiraEnv) (p : UpdateParams) (existing : List Json) :
    updateWithLabels env p existing =
      (match env (updatePutRequest p.issueIdOrKey
          (updateFieldsJson p.fields (mergedLabels existing p.fields)) p.update) with
       | .error e =>
           (handleOperationError e "updating issue",
            [updateGetLabelsRequest p.issueIdOrKey,
             updatePutRequest p.issueIdOrKey
               (updateFieldsJson p.fields (mergedLabels existing p.fields)) p.update])
       | .ok _ =>
           updateHandleLinks env p.issueIdOrKey p.linkedIssues (statusFieldOf p)
             [updateGetLabelsRequest p.issueIdOrKey,
              updatePutRequest p.issueIdOrKey
                (updateFieldsJson p.fields (mergedLabels existing p.fields)) p.update]) := by
  unfold updateWithLabels
  rw [if_pos (putNeeded_true p (mergedLabels existing p.fields))]

theorem updateHandleLinks_trace (env : JiraEnv) (issueIdOrKey : String)
    (linkedIssues : Option (List LinkedIssueParams))
    (statusField : Option StatusFieldParams) (traceSoFar : List JiraRequest) :
    ∃ rest, (updateHandleLinks env issueIdOrKey linkedIssues statusField traceSoFar).2 =
      traceSoFar ++ rest := by
  cases linkedIssues with
  | none => exact updateHandleStatus_trace env issueIdOrKey statusField traceSoFar
  | some links =>
      unfold updateHandleLinks
      dsimp only
      by_cases hlen : links.length > 0
      · rw [if_pos hlen]
        cases hfe : firstError ((links.map linkRequest).map env) with
        | some e => exact ⟨links.map linkRequest, rfl⟩
        | none =>
            obtain ⟨rest, hrest⟩ :=
              updateHandleStatus_trace env issueIdOrKey statusField
                (traceSoFar ++ links.map linkRequest)
            exact ⟨links.map linkRequest ++ rest, by rw [hrest, List.append_assoc]⟩
      · rw [if_neg hlen]
        exact updateHandleStatus_trace env issueIdOrKey statusField traceSoFar

theorem updateHandleLinks_firstError (env : JiraEnv) (issueIdOrKey : String)
    (links : List LinkedIssueParams) (hne : links ≠ [])
    (statusField : Option StatusFieldParams) (traceSoFar : List JiraRequest)
    (e : String) (hfe : firstError ((links.map linkRequest).map env) = some e) :
    updateHandleLinks env issueIdOrKey (some links) statusField traceSoFar =
      (handleOperationError e "updating issue", traceSoFar ++ links.map linkRequest) := by
  unfold updateHandleLinks
  dsimp only
  rw [if_pos (show links.length > 0 from List.length_pos.mpr hne), hfe]

/-! ### Claim C6 — linked-issue fan-out -/

/-- Claim C6: with a non-empty `linkedIssues` list (and the preceding GET
and PUT succeeding), exactly one `issueLink` POST per entry is dispatched,
in list order, each carrying the entry's type with `fromIssueKey` as
`outwardIssue` and `toIssueKey` as `inwardIssue`; the joint await fails
the whole operation with a single payload carrying the first rejection
(one of the link calls' errors), with no aggregation of the others. -/
theorem c6_linked_issue_fanout (env : JiraEnv) (p : UpdateParams)
    (links : List LinkedIssueParams) (currentIssue : Json) (existing : List Json)
    (putResp : Json)
    (hlinks : p.linkedIssues = some links) (hne : links ≠ [])
    (hget : env (updateGetLabelsRequest p.issueIdOrKey) = .ok currentIssue)
    (hlab : extractExistingLabels currentIssue = .ok existing)
    (hput : env (updatePutRequest p.issueIdOrKey
        (updateFieldsJson p.fields (mergedLabels existing p.fields)) p.update) = .ok putResp) :
    (∃ rest, (updateJiraIssue env p).2 =
        ([updateGetLabelsRequest p.issueIdOrKey,
          updatePutRequest p.issueIdOrKey
            (updateFieldsJson p.fields (mergedLabels existing p.fields)) p.update] ++
          links.map linkRequest) ++ rest) ∧
    (∀ link, linkRequest link =
        ⟨"issueLink", "POST",
         some (.jobj [("type", .jobj [("name", .jstr link.type)]),
                      ("outwardIssue", .jobj [("key", .jstr link.fromIssueKey)]),
                      ("inwardIssue", .jobj [("key", .jstr link.toIssueKey)])])⟩) ∧
    (∀ e, firstError ((links.map linkRequest).map env) = some e →
        updateJiraIssue env p =
          (handleOperationError e "updating issue",
           [updateGetLabelsRequest p.issueIdOrKey,
            updatePutRequest p.issueIdOrKey
              (updateFieldsJson p.fields (mergedLabels existing p.fields)) p.update] ++
             links.map linkRequest)) ∧
    (∀ e, firstError ((links.map linkRequest).map env) = some e →
        ∃ l ∈ links, env (linkRequest l) = .error e) := by
  have hred : updateJiraIssue env p =
      updateHandleLinks env p.issueIdOrKey (some links) (statusFieldOf p)
        [updateGetLabelsRequest p.issueIdOrKey,
         updatePutRequest p.issueIdOrKey
           (updateFieldsJson p.fields (mergedLabels existing p.fields)) p.update] := by
    rw [updateJiraIssue_after_get env p currentIssue existing hget hlab,
      updateWithLabels_put, hput, hlinks]
  refine ⟨?_, fun link => rfl, ?_, ?_⟩
  · rw [hred]
    unfold updateHandleLinks
    dsimp only
    rw [if_pos (show links.length > 0 from List.length_pos.mpr hne)]
    cases hfe : firstError ((links.map linkRequest).map env) with
    | some e => exact ⟨[], by simp⟩
    | none =>
        obtain ⟨rest, hrest⟩ :=
          updateHandleStatus_trace env p.issueIdOrKey (statusFieldOf p)
            ([updateGetLabelsRequest p.issueIdOrKey,
              updatePutRequest p.issueIdOrKey
                (updateFieldsJson p.fields (mergedLabels existing p.fields)) p.update] ++
              links.map linkRequest)
        exact ⟨rest, hrest⟩
  · intro e hfe
    rw [hred, updateHandleLinks_firstError env p.issueIdOrKey links hne (statusFieldOf p) _ e hfe]
  · intro e hfe
    have hmem := firstError_mem e ((links.map linkRequest).map env) hfe
    rw [List.mem_map] at hmem
    obtain ⟨req, hreq, herr⟩ := hmem
    rw [List.mem_map] at hreq
    obtain ⟨l, hl, rfl⟩ := hreq
    exact ⟨l, hl, herr.symm ▸ herr⟩

/-- Witness for C6: one linked issue whose `issueLink` POST fails turns
the whole update into the single failure payload, after dispatching the
link request. -/
theorem c6_linked_issue_fanout_witness :
    updateJiraIssue linkFailEnv linkedUpdateParams =
      (handleOperationError "link down" "updating issue",
       [updateGetLabelsRequest "AIF-1",
        updatePutRequest "AIF-1" (updateFieldsJson none (mergedLabels [] none)) none,
        linkRequest ⟨"AIF-1", "AIF-2", "Blocks"⟩]) := by
  have h := c6_linked_issue_fanout linkFailEnv linkedUpdateParams
    [⟨"AIF-1", "AIF-2", "Blocks"⟩] (.jobj []) [] (.jobj [])
    rfl (List.cons_ne_nil _ _) rfl rfl rfl
  exact h.2.2.1 "link down" rfl

/-! ### Claim C9 — label merging on update -/

/-- Claim C9: `updateJiraIssue` first GETs the current labels and always
issues the PUT right after (the merged `labels` key makes the guard
true), with the PUT body's `labels` field being the duplicate-free union
of the existing label names and the caller-supplied labels (the union of
the existing names with `[]` when none are supplied) — so every existing
label survives and the `labels` field is always present. -/
theorem c9_labels_merge (env : JiraEnv) (p : UpdateParams) (currentIssue : Json)
    (existing : List Json)
    (hget : env (updateGetLabelsRequest p.issueIdOrKey) = .ok currentIssue)
    (hlab : extractExistingLabels currentIssue = .ok existing) :
    (∃ rest, (updateJiraIssue env p).2 =
        [updateGetLabelsRequest p.issueIdOrKey,
         updatePutRequest p.issueIdOrKey
           (updateFieldsJson p.fields (mergedLabels existing p.fields)) p.update] ++ rest) ∧
    getField (updateFieldsJson p.fields (mergedLabels existing p.fields)) "labels" =
      some (.jarr (mergedLabels existing p.fields)) ∧
    mergedLabels existing p.fields =
      dedupFirst (existing.map labelNameOf ++ suppliedLabels p.fields) ∧
    (mergedLabels existing p.fields).Nodup ∧
    (∀ l ∈ existing.map labelNameOf, l ∈ mergedLabels existing p.fields) ∧
    (∀ l ∈ suppliedLabels p.fields, l ∈ mergedLabels existing p.fields) := by
  refine ⟨?_, getField_updateFieldsJson_labels p.fields _, rfl, dedupFirst_nodup _, ?_, ?_⟩
  · rw [updateJiraIssue_after_get env p currentIssue existing hget hlab, updateWithLabels_put]
    cases henv : env (updatePutRequest p.issueIdOrKey
        (updateFieldsJson p.fields (mergedLabels existing p.fields)) p.update) with
    | error e => exact ⟨[], rfl⟩
    | ok v =>
        obtain ⟨rest, hrest⟩ :=
          updateHandleLinks_trace env p.issueIdOrKey p.linkedIssues (statusFieldOf p)
            [updateGetLabelsRequest p.issueIdOrKey,
             updatePutRequest p.issueIdOrKey
               (updateFieldsJson p.fields (mergedLabels existing p.fields)) p.update]
        exact ⟨rest, hrest⟩
  · intro l hl
    rw [mergedLabels, dedupFirst_mem]
    exact List.mem_append_left _ hl
  · intro l hl
    rw [mergedLabels, dedupFirst_mem]
    exact List.mem_append_right _ hl

/-- Witness for C9: with current labels `["old"]` and supplied labels
`["new", "old"]`, the PUT body's `labels` field is `["old", "new"]`. -/
theorem c9_labels_merge_witness :
    getField (updateFieldsJson labelsUpdateParams.fields
        (mergedLabels [.jstr "old"] labelsUpdateParams.fields)) "labels" =
      some (.jarr [.jstr "old", .jstr "new"]) := by
  have h := c9_labels_merge labelsEnv labelsUpdateParams labelsIssueJson [.jstr "old"] rfl rfl
  exact h.2.1

end CorpJira
